import Mathlib

/-!
Verification of the Flask API wrapper for the Legal RAG Pipeline (app.py)
against its natural-language specification.

The pure request-handling logic of app.py is embedded shallowly: request
payloads, the upload loop, file validation, parameter validation and the
route handlers become Lean functions.  The LegalRAGPipeline core
(main_pipeline, not among the repository sources) is modelled from the
specification wherever a claim depends on it; every such definition carries
a doc comment starting with Modelled from the spec.
-/

/-- File extensions accepted for upload (ALLOWED_EXTENSIONS in app.py). -/
def ALLOWED_EXTENSIONS : List String := ["pdf", "docx", "doc", "txt", "rtf", "odt"]

/-- Per-file size limit in bytes (MAX_FILE_SIZE in app.py): 50MB. -/
def MAX_FILE_SIZE : Nat := 50 * 1024 * 1024

/-- Characters after the last dot of a filename: the second component of the
Python idiom that splits once at the final dot.  Returns the empty list when
no dot occurs; callers guard on the dot check first, exactly as the source
short-circuits. -/
def rsplitLast : List Char → List Char
  | [] => []
  | c :: cs => if c = '.' ∧ cs.contains '.' = false then cs else rsplitLast cs

/-- allowed_file from app.py (lines 75-78): the filename contains a dot and
the extension after the last dot, lowercased, is in ALLOWED_EXTENSIONS. -/
def allowed_file (filename : String) : Bool :=
  filename.toList.contains '.' &&
    (ALLOWED_EXTENSIONS.map String.toList).contains
      ((rsplitLast filename.toList).map Char.toLower)

/-- The predicate of the claim, stated independently of the source: the
suffix after the LAST dot is computed by taking the non-dot characters from
the right end of the filename. -/
def allowedFileSpec (filename : String) : Prop :=
  '.' ∈ filename.toList ∧
    ((filename.toList.reverse.takeWhile (fun c => c != '.')).reverse.map Char.toLower)
      ∈ ALLOWED_EXTENSIONS.map String.toList

/-- A seekable byte stream: total size and current position.  Models the
werkzeug file object consumed by validate_file_size. -/
structure FileStream where
  size : Nat
  pos : Nat
  deriving DecidableEq

/-- validate_file_size from app.py (lines 80-85): seek to the end, read the
position as the size, seek back to the beginning, and compare against
MAX_FILE_SIZE.  Returns the verdict together with the stream as left by the
seeks. -/
def validate_file_size (file : FileStream) : Bool × FileStream :=
  let f1 : FileStream := { file with pos := file.size }
  let file_size := f1.pos
  let f2 : FileStream := { f1 with pos := 0 }
  (decide (file_size ≤ MAX_FILE_SIZE), f2)

/-- One file part of a multipart upload request: the client-supplied
filename, its size in bytes, and whether saving it to the temp directory
succeeds (a save exception and a failed existence verification both yield a
per-file error in the source, modelled as one flag). -/
structure UploadedFile where
  filename : String
  size : Nat
  saveOk : Bool
  deriving DecidableEq

/-- One iteration of the upload loop in app.py (lines 219-252): parts with an
empty filename are skipped; a disallowed extension or an oversized file gets
a per-file error; otherwise the file is saved.  The saved path (timestamped,
sanitized) is abstracted to the filename itself, since no claim depends on
the path format. -/
def uploadOutcome (f : UploadedFile) : List String × List String :=
  if f.filename = "" then ([], [])
  else if allowed_file f.filename = false then
    ([], ["File type not allowed: " ++ f.filename])
  else if MAX_FILE_SIZE < f.size then
    ([], ["File too large: " ++ f.filename ++ " (max 50MB)"])
  else if f.saveOk then ([f.filename], [])
  else ([], ["File save verification failed: " ++ f.filename])

/-- The upload loop of app.py: iterate the uploaded parts in order,
collecting saved file paths and per-file error messages. -/
def upload_files : List UploadedFile → List String × List String
  | [] => ([], [])
  | f :: fs =>
      ((uploadOutcome f).1 ++ (upload_files fs).1,
       (uploadOutcome f).2 ++ (upload_files fs).2)

/-- A JSON value as consumed by these endpoints: null, a string, or an array
of strings and nulls (the only array payloads the handlers read). -/
inductive JVal where
  | null : JVal
  | s : String → JVal
  | arr : List (Option String) → JVal
  deriving DecidableEq

/-- Whether a JSON value is falsy in Python (None, empty string, empty
list). -/
def JVal.falsy : JVal → Bool
  | .null => true
  | .s v => v == ""
  | .arr vs => vs.isEmpty

/-- The elements a handler iterates when it treats a JSON value as a list of
file paths: an array gives its elements; Python iterates a string as its
characters; null has no elements. -/
def JVal.pathsOf : JVal → List (Option String)
  | .null => []
  | .s v => v.toList.map (fun c => some (String.mk [c]))
  | .arr vs => vs

/-- A JSON request body: whether the request carries JSON at all, and the
fields of the parsed object. -/
structure JsonRequest where
  is_json : Bool
  fields : List (String × JVal)
  deriving DecidableEq

/-- Key membership, the check used for required fields. -/
def JsonRequest.hasKey (req : JsonRequest) (k : String) : Bool :=
  (req.fields.map Prod.fst).contains k

/-- Field access. -/
def JsonRequest.getField (req : JsonRequest) (k : String) : Option JVal :=
  (req.fields.find? (fun e => e.1 == k)).map Prod.snd

/-- Optional string field access, as in Python dict get: some string when
present and non-null, none otherwise. -/
def JsonRequest.getOptStr (req : JsonRequest) (k : String) : Option String :=
  match req.getField k with
  | some (.s v) => some v
  | _ => none

/-- Required string field access (the handlers read validated required
fields this way; non-string payloads for these fields are outside the
claims). -/
def JsonRequest.getStr (req : JsonRequest) (k : String) : String :=
  match req.getField k with
  | some (.s v) => v
  | _ => ""

/-- The error message naming the missing required fields.  Python renders
the list of field names; the exact list formatting is immaterial to the
claims, the message is a function of exactly that list. -/
def missingFieldsMsg (missing : List String) : String :=
  "Missing required fields: [" ++ String.intercalate ", " missing ++ "]"

/-- validate_json_request from app.py (lines 124-138): requires a JSON body,
a non-empty object, and every required field present; returns the parsed
data or the error message. -/
def validate_json_request (required_fields : List String) (req : JsonRequest) :
    Except String JsonRequest :=
  if req.is_json = false then .error "Request must be JSON"
  else if req.fields = [] then .error "Invalid JSON data"
  else
    let missing := required_fields.filter (fun field => !req.hasKey field)
    if missing = [] then .ok req else .error (missingFieldsMsg missing)

/-- A standardized error response: handle_error in app.py pairs a message
with an HTTP status code. -/
structure ErrResp where
  message : String
  status : Nat
  deriving DecidableEq

/-- A route response: either a JSON success payload or a handle_error
response. -/
abbrev Resp (α : Type) : Type := Except ErrResp α

/-- A retrieval chunk (spec data model): a slice of extracted text with its
source path and assigned category. -/
structure Chunk where
  text : String
  source_path : String
  category : String
  deriving DecidableEq

/-- A conversation turn (spec data model). -/
structure Turn where
  role : String
  content : String
  deriving DecidableEq

/-- Modelled from the spec: the state of the LegalRAGPipeline core
(main_pipeline is not among the repository sources).  ready is the Pipeline
Readiness Flag; chunks are the indexed chunks of the loaded category
stores; persisted holds the on-disk store artifacts as (namespace,
category) pairs; conversation is the turn history. -/
structure CoreState where
  ready : Bool
  chunks : List Chunk
  persisted : List (String × String)
  conversation : List Turn
  deriving DecidableEq

/-- Modelled from the spec: the error kinds of the core that the claims
exercise (spec error taxonomy). -/
inductive CoreError where
  | pipelineNotReady : CoreError
  | categoryNotFound : CoreError
  | fileNotIndexed : CoreError
  | storeNotFound : CoreError
  deriving DecidableEq

/-- The user message each core error is mapped to.  The spec maps
PipelineNotReadyError to a process-documents-first message, which the
wrapper renders verbatim at app.py line 355. -/
def coreErrorMsg : CoreError → String
  | .pipelineNotReady => "Pipeline not ready. Process documents first."
  | .categoryNotFound => "Category not found"
  | .fileNotIndexed => "File not indexed"
  | .storeNotFound => "No stores found for the given namespace"

/-- A query scope (spec retrieval router): the whole corpus, one category,
or one file. -/
inductive Scope where
  | allCategories : Scope
  | singleCategory : String → Scope
  | singleFile : String → Scope
  deriving DecidableEq

/-- The chunks indexed under a category. -/
def retrieveCategory (st : CoreState) (cat : String) : List Chunk :=
  st.chunks.filter (fun c => c.category == cat)

/-- Modelled from the spec: retrieval is gated by the Pipeline Readiness
Flag and then resolves the scope; relevance ranking and the top-K cut are
abstracted away, since no claim depends on ordering or on K. -/
def retrieve (st : CoreState) (scope : Scope) : Except CoreError (List Chunk) :=
  if st.ready = false then .error .pipelineNotReady
  else match scope with
  | .allCategories => .ok st.chunks
  | .singleCategory cat =>
      let cs := retrieveCategory st cat
      if cs = [] then .error .categoryNotFound else .ok cs
  | .singleFile path =>
      let cs := st.chunks.filter (fun c => c.source_path == path)
      if cs = [] then .error .fileNotIndexed else .ok cs

/-- A synthesized answer (spec answer synthesizer): answer text plus cited
sources. -/
structure Answer where
  answer_text : String
  cited_sources : List String
  deriving DecidableEq

/-- Modelled from the spec: answer is retrieve-then-generate, citing the
source paths of the retrieved chunks.  The generation model is a
parameter. -/
def answer_core (generate : String → String) (st : CoreState) (question : String)
    (scope : Scope) : Except CoreError Answer :=
  (retrieve st scope).map (fun cs =>
    { answer_text := generate (question ++ String.intercalate " " (cs.map Chunk.text)),
      cited_sources := cs.map Chunk.source_path })

/-- Modelled from the spec: a comparison outcome is a normal structured
result, either a generated comparison or an insufficient-evidence outcome —
the spec requires InsufficientEvidenceError to be a structured result
distinguishing no-answer-found from system failure. -/
inductive CompareResult where
  | comparison : String → List String → List String → CompareResult
  | insufficientEvidence : String → String → CompareResult
  deriving DecidableEq

/-- Modelled from the spec: compare retrieves independently from the two
scopes and yields insufficientEvidence when either side has zero chunks,
calling the generation model only otherwise. -/
def compare_core (generate : String → String) (st : CoreState)
    (question c1 c2 : String) : Except CoreError CompareResult :=
  if st.ready = false then .error .pipelineNotReady
  else
    let ca := retrieveCategory st c1
    let cb := retrieveCategory st c2
    if ca = [] ∨ cb = [] then .ok (.insufficientEvidence c1 c2)
    else .ok (.comparison
      (generate (question ++ String.intercalate " " (ca.map Chunk.text)
        ++ String.intercalate " " (cb.map Chunk.text)))
      (ca.map Chunk.source_path) (cb.map Chunk.source_path))

/-- Modelled from the spec: processDocuments returns a per-file map pairing
each path with its assigned category or its own extraction error;
extraction and categorization are parameters; the optional store namespace
does not affect the shape of the per-file map. -/
def process_new_documents_with_categories (extract : String → Except String String)
    (categorize : String → String) (paths : List String) (_sp : Option String) :
    List (String × Except String String) :=
  paths.map (fun p => (p, (extract p).map categorize))

/-- Modelled from the spec: load scans the persisted stores for the given
namespace, loads every matching category and sets the readiness flag; fails
with StoreNotFoundError when no store matches. -/
def load_existing_category_stores (st : CoreState) (pfx : String) :
    Except CoreError (CoreState × List (String × Bool)) :=
  let matching := st.persisted.filter (fun e => e.1 == pfx)
  if matching = [] then .error .storeNotFound
  else .ok ({ st with ready := true }, matching.map (fun e => (e.2, true)))

/-- Modelled from the spec: delete removes the persisted store artifacts
matching the namespace — or ALL stores when the namespace is omitted — and
returns the category-to-deleted map. -/
def delete_category_stores (st : CoreState) (pfx : Option String) :
    CoreState × List (String × Bool) :=
  match pfx with
  | none => ({ st with persisted := [] }, st.persisted.map (fun e => (e.2, true)))
  | some p =>
      ({ st with persisted := st.persisted.filter (fun e => e.1 != p) },
       (st.persisted.filter (fun e => e.1 == p)).map (fun e => (e.2, true)))

/-- Modelled from the spec: clear resets the turn history. -/
def clear_conversation_core (st : CoreState) : CoreState :=
  { st with conversation := [] }

/-- Modelled from the spec: history returns the turns in chronological
order. -/
def get_conversation_history_core (st : CoreState) : List Turn :=
  st.conversation

/-- Python sum over a list of booleans (True counts as 1), as used for the
stores_deleted field at app.py line 884. -/
def pySumBools (l : List Bool) : Nat :=
  (l.map (fun b => if b then 1 else 0)).sum

/-- Python strip: remove leading and trailing whitespace. -/
def pyStrip (s : String) : String :=
  String.mk (((s.toList.dropWhile Char.isWhitespace).reverse.dropWhile
    Char.isWhitespace).reverse)

/-- The path filtering at app.py lines 294-297: drop nulls and blank
strings, strip surrounding whitespace from the rest. -/
def validPathsOf (fps : List (Option String)) : List String :=
  fps.filterMap (fun o => match o with
    | some t => if pyStrip t == "" then none else some (pyStrip t)
    | none => none)

/-- The /query handler (app.py lines 347-373): pipeline presence, the
wrapper readiness gate, question validation, then the core query over all
categories or one category. -/
def query_documents (generate : String → String) (pl : Option CoreState)
    (req : JsonRequest) : Resp Answer :=
  match pl with
  | none => .error { message := "Pipeline not initialized", status := 503 }
  | some st =>
    if st.ready = false then
      .error { message := "Pipeline not ready. Process documents first.", status := 400 }
    else
      match validate_json_request ["question"] req with
      | .error msg => .error { message := msg, status := 400 }
      | .ok data =>
        let scope := match data.getOptStr "category" with
          | none => Scope.allCategories
          | some c => Scope.singleCategory c
        match answer_core generate st (data.getStr "question") scope with
        | .ok ans => .ok ans
        | .error e => .error { message := "Query error: " ++ coreErrorMsg e, status := 500 }

/-- The /query_category handler (app.py lines 375-396): pipeline presence
and question validation only — no wrapper-level readiness gate — then the
core single-category query. -/
def query_specific_category (generate : String → String) (pl : Option CoreState)
    (category : String) (req : JsonRequest) : Resp Answer :=
  match pl with
  | none => .error { message := "Pipeline not initialized", status := 503 }
  | some st =>
    match validate_json_request ["question"] req with
    | .error msg => .error { message := msg, status := 400 }
    | .ok data =>
      match answer_core generate st (data.getStr "question") (Scope.singleCategory category) with
      | .ok ans => .ok ans
      | .error e => .error { message := "Category query error: " ++ coreErrorMsg e, status := 500 }

/-- The /query_file handler (app.py lines 398-424): pipeline presence,
question and file_path validation, an existence check on the path, then the
core single-file query. -/
def query_by_file (fileExists : String → Bool) (generate : String → String)
    (pl : Option CoreState) (req : JsonRequest) : Resp Answer :=
  match pl with
  | none => .error { message := "Pipeline not initialized", status := 503 }
  | some st =>
    match validate_json_request ["question", "file_path"] req with
    | .error msg => .error { message := msg, status := 400 }
    | .ok data =>
      if fileExists (data.getStr "file_path") = false then
        .error { message := "File not found", status := 404 }
      else
        match answer_core generate st (data.getStr "question")
            (Scope.singleFile (data.getStr "file_path")) with
        | .ok ans => .ok ans
        | .error e => .error { message := "File query error: " ++ coreErrorMsg e, status := 500 }

/-- The /process handler (app.py lines 276-318): pipeline presence,
file_paths validation, null and blank filtering, then an existence check
that aborts the whole request with a 404 naming every missing file BEFORE
the core is invoked; only a batch of existing paths reaches the core. -/
def process_documents (fileExists : String → Bool)
    (extract : String → Except String String) (categorize : String → String)
    (pl : Option CoreState) (req : JsonRequest) :
    Resp (List (String × Except String String)) :=
  match pl with
  | none => .error { message := "Pipeline not initialized", status := 503 }
  | some _ =>
    match validate_json_request ["file_paths"] req with
    | .error msg => .error { message := msg, status := 400 }
    | .ok data =>
      match data.getField "file_paths" with
      | none => .error { message := "No file paths provided", status := 400 }
      | some fpv =>
        if fpv.falsy then .error { message := "No file paths provided", status := 400 }
        else
          let valid := validPathsOf fpv.pathsOf
          if valid = [] then .error { message := "No valid file paths provided", status := 400 }
          else
            let missing := valid.filter (fun fp => !fileExists fp)
            if missing = [] then
              .ok (process_new_documents_with_categories extract categorize valid
                (data.getOptStr "store_prefix"))
            else
              .error { message := "Files not found: [" ++ String.intercalate ", " missing ++ "]",
                       status := 404 }

/-- The /compare handler (app.py lines 430-454): pipeline presence, the
three required fields, then the core comparison; a structured core result
is returned as a success payload. -/
def compare_documents (generate : String → String) (pl : Option CoreState)
    (req : JsonRequest) : Resp CompareResult :=
  match pl with
  | none => .error { message := "Pipeline not initialized", status := 503 }
  | some st =>
    match validate_json_request ["question", "category1", "category2"] req with
    | .error msg => .error { message := msg, status := 400 }
    | .ok data =>
      match compare_core generate st (data.getStr "question") (data.getStr "category1")
          (data.getStr "category2") with
      | .ok r => .ok r
      | .error e => .error { message := "Comparison error: " ++ coreErrorMsg e, status := 500 }

/-- The /load_stores handler (app.py lines 320-341). -/
def load_existing_stores (pl : Option CoreState) (req : JsonRequest) :
    Resp (CoreState × List (String × Bool)) :=
  match pl with
  | none => .error { message := "Pipeline not initialized", status := 503 }
  | some st =>
    match validate_json_request ["store_prefix"] req with
    | .error msg => .error { message := msg, status := 400 }
    | .ok data =>
      match load_existing_category_stores st (data.getStr "store_prefix") with
      | .ok r => .ok r
      | .error e => .error { message := "Load stores error: " ++ coreErrorMsg e, status := 500 }

/-- The /stores/delete handler (app.py lines 869-889): reads the optional
namespace, calls the core delete, and reports the per-category map together
with stores_deleted, the Python sum of the boolean flags. -/
def delete_stores (pl : Option CoreState) (req : JsonRequest) :
    Resp (CoreState × List (String × Bool) × Nat) :=
  match pl with
  | none => .error { message := "Pipeline not initialized", status := 503 }
  | some st =>
    let r := delete_category_stores st (req.getOptStr "store_prefix")
    .ok (r.1, r.2, pySumBools (r.2.map Prod.snd))

/-- The /conversation/clear handler (app.py lines 828-844): clears the core
turn history. -/
def clear_conversation (pl : Option CoreState) : Resp CoreState :=
  match pl with
  | none => .error { message := "Pipeline not initialized", status := 503 }
  | some st => .ok (clear_conversation_core st)

/-- The /conversation/history handler (app.py lines 846-863): returns the
history and message_count, its length. -/
def get_conversation_history (pl : Option CoreState) : Resp (List Turn × Nat) :=
  match pl with
  | none => .error { message := "Pipeline not initialized", status := 503 }
  | some st => .ok (get_conversation_history_core st, (get_conversation_history_core st).length)

/-- Helper: a namespace filtered out of the persisted stores leaves nothing
matching that namespace. -/
theorem filter_after_delete (l : List (String × String)) (p : String) :
    (l.filter (fun e => e.1 != p)).filter (fun e => e.1 == p) = [] := by
  induction l with
  | nil => rfl
  | cons a t ih =>
      by_cases h : a.1 = p
      · simp [List.filter_cons, h, ih]
      · simp [List.filter_cons, h, ih]

/-- Helper: the Python sum of a boolean list counts its true entries. -/
theorem pySumBools_eq_count (l : List Bool) :
    pySumBools l = (l.filter id).length := by
  induction l with
  | nil => rfl
  | cons b t ih =>
      cases b
      · simpa [pySumBools, List.filter_cons] using ih
      · simp only [pySumBools, List.map_cons, List.sum_cons, List.filter_cons] at ih ⊢
        simp [ih]
        omega

/-- C10: validate_file_size accepts exactly the files of at most
50 * 1024 * 1024 bytes, and it always leaves the stream position at 0,
whatever the position was on entry. -/
theorem claim_C10_validate_file_size (file : FileStream) :
    ((validate_file_size file).1 = true ↔ file.size ≤ 50 * 1024 * 1024) ∧
    (validate_file_size file).2.pos = 0 := by
  constructor
  · simp [validate_file_size, MAX_FILE_SIZE]
  · rfl

/-- C8: clearing the conversation through the clear route and then reading
it through the history route yields the empty ordered sequence with
message_count 0, from any prior state. -/
theorem claim_C8_clear_then_history (st : CoreState) :
    clear_conversation (some st) = .ok (clear_conversation_core st) ∧
    get_conversation_history (some (clear_conversation_core st)) = .ok ([], 0) :=
  ⟨rfl, rfl⟩

/-- C5: loading a namespace right after deleting that same namespace fails
with StoreNotFoundError — delete removes the persisted store artifacts, so
the subsequent load finds no matching store, whatever the prior state. -/
theorem claim_C5_load_after_delete (st : CoreState) (p : String) :
    load_existing_category_stores (delete_category_stores st (some p)).1 p =
      Except.error CoreError.storeNotFound := by
  simp [load_existing_category_stores, delete_category_stores, filter_after_delete]

/-- C6: with the namespace omitted, the delete handler deletes ALL persisted
stores, returns the per-category deleted map, and reports stores_deleted
equal to the number of categories whose flag in that map is true. -/
theorem claim_C6_delete_all_and_count (st : CoreState) (req : JsonRequest)
    (hsp : req.getOptStr "store_prefix" = none) :
    delete_stores (some st) req =
      .ok ({ st with persisted := [] }, st.persisted.map (fun e => (e.2, true)),
        pySumBools ((st.persisted.map (fun e => (e.2, true))).map Prod.snd)) ∧
    pySumBools ((st.persisted.map (fun e => (e.2, true))).map Prod.snd) =
      ((st.persisted.map (fun e => (e.2, true))).filter (fun r => r.2)).length := by
  constructor
  · simp [delete_stores, hsp, delete_category_stores]
  · rw [pySumBools_eq_count]
    simp [List.filter_map, List.map_map, Function.comp]

/-- C6 witness: deleting with no namespace on a pipeline holding two
persisted stores removes both, returns both flags true, and reports
stores_deleted 2, the number of true flags. -/
theorem claim_C6_witness :
    delete_stores (some ⟨true, [], [("a", "NDA"), ("a", "Lease")], []⟩) ⟨true, []⟩ =
      .ok (⟨true, [], [], []⟩, [("NDA", true), ("Lease", true)], 2) ∧
    (2 : Nat) = ([("NDA", true), ("Lease", true)].filter (fun r => r.2)).length := by
  have h := claim_C6_delete_all_and_count ⟨true, [], [("a", "NDA"), ("a", "Lease")], []⟩
    ⟨true, []⟩ rfl
  exact ⟨h.1, h.2⟩

/-- Helper: validation succeeds when the request is JSON, non-empty, and
every required field is present. -/
theorem validate_ok (required : List String) (req : JsonRequest)
    (hjson : req.is_json = true) (hne : req.fields ≠ [])
    (hall : ∀ f ∈ required, req.hasKey f = true) :
    validate_json_request required req = .ok req := by
  have hm : required.filter (fun f => !req.hasKey f) = [] := by
    rw [List.filter_eq_nil_iff]
    intro f hf
    simp [hall f hf]
  simp [validate_json_request, hjson, hne, hm]

/-- Helper: validation fails with the message naming exactly the absent
required fields when at least one is absent. -/
theorem validate_missing (required : List String) (req : JsonRequest)
    (hjson : req.is_json = true) (hne : req.fields ≠ [])
    (hm : required.filter (fun f => !req.hasKey f) ≠ []) :
    validate_json_request required req =
      .error (missingFieldsMsg (required.filter (fun f => !req.hasKey f))) := by
  simp [validate_json_request, hjson, hne, hm]

/-- C1: with the Pipeline Readiness Flag false, every query form — all
categories via the query route, single category via the category route,
single file via the file route — fails with the PipelineNotReadyError
message and produces no answer, for every generation model, valid question
payload, category, and existing file. -/
theorem claim_C1_queries_gated_by_readiness (generate : String → String)
    (st : CoreState) (req : JsonRequest) (category : String)
    (fileExists : String → Bool)
    (hready : st.ready = false) (hjson : req.is_json = true)
    (hne : req.fields ≠ []) (hq : req.hasKey "question" = true)
    (hf : req.hasKey "file_path" = true)
    (hex : fileExists (req.getStr "file_path") = true) :
    query_documents generate (some st) req =
      .error { message := coreErrorMsg .pipelineNotReady, status := 400 } ∧
    query_specific_category generate (some st) category req =
      .error { message := "Category query error: " ++ coreErrorMsg .pipelineNotReady,
               status := 500 } ∧
    query_by_file fileExists generate (some st) req =
      .error { message := "File query error: " ++ coreErrorMsg .pipelineNotReady,
               status := 500 } := by
  have hv1 : validate_json_request ["question"] req = .ok req :=
    validate_ok _ _ hjson hne (by
      intro f hf2
      simp at hf2
      subst hf2
      exact hq)
  have hv2 : validate_json_request ["question", "file_path"] req = .ok req :=
    validate_ok _ _ hjson hne (by
      intro f hf2
      simp at hf2
      rcases hf2 with rfl | rfl
      · exact hq
      · exact hf)
  refine ⟨?_, ?_, ?_⟩
  · simp [query_documents, hready, coreErrorMsg]
  · simp [query_specific_category, hv1, answer_core, retrieve, hready, Except.map]
  · simp [query_by_file, hv2, hex, answer_core, retrieve, hready, Except.map]

/-- C1 witness: a not-ready pipeline rejects all three query forms on a
concrete valid request. -/
theorem claim_C1_witness :
    query_documents (fun _ => "") (some ⟨false, [], [], []⟩)
        ⟨true, [("question", JVal.s "q"), ("file_path", JVal.s "f.txt")]⟩ =
      .error { message := coreErrorMsg .pipelineNotReady, status := 400 } ∧
    query_specific_category (fun _ => "") (some ⟨false, [], [], []⟩) "NDA"
        ⟨true, [("question", JVal.s "q"), ("file_path", JVal.s "f.txt")]⟩ =
      .error { message := "Category query error: " ++ coreErrorMsg .pipelineNotReady,
               status := 500 } ∧
    query_by_file (fun _ => true) (fun _ => "") (some ⟨false, [], [], []⟩)
        ⟨true, [("question", JVal.s "q"), ("file_path", JVal.s "f.txt")]⟩ =
      .error { message := "File query error: " ++ coreErrorMsg .pipelineNotReady,
               status := 500 } :=
  claim_C1_queries_gated_by_readiness (fun _ => "") ⟨false, [], [], []⟩
    ⟨true, [("question", JVal.s "q"), ("file_path", JVal.s "f.txt")]⟩ "NDA"
    (fun _ => true) rfl rfl (by decide) (by decide) (by decide) rfl

/-- C4 counterexample: the query route rejects a not-ready pipeline with
HTTP status 400, not the 503 the claim asserts. -/
theorem claim_C4_counterexample :
    query_documents (fun _ => "") (some ⟨false, [], [], []⟩)
        ⟨true, [("question", JVal.s "q")]⟩ =
      .error { message := "Pipeline not ready. Process documents first.", status := 400 } ∧
    (400 : Nat) ≠ 503 :=
  ⟨rfl, by decide⟩

/-- C4 amended: the query rejection for a not-ready pipeline carries the
PipelineNotReadyError message with HTTP status 400 — the status class the
wrapper also uses for input-validation failures, not 503 — and a successful
loadStores sets the readiness flag, so the condition is recoverable. -/
theorem claim_C4_amended (generate : String → String) (st st2 st3 : CoreState)
    (req : JsonRequest) (p : String) (res : List (String × Bool))
    (hready : st.ready = false)
    (hload : load_existing_category_stores st2 p = .ok (st3, res)) :
    query_documents generate (some st) req =
      .error { message := coreErrorMsg .pipelineNotReady, status := 400 } ∧
    st3.ready = true := by
  constructor
  · simp [query_documents, hready, coreErrorMsg]
  · rw [load_existing_category_stores] at hload
    split at hload
    · exact absurd hload (by simp)
    · simp only [Except.ok.injEq, Prod.mk.injEq] at hload
      rw [← hload.1]

/-- C4 witness: the concrete rejection carries status 400, and a concrete
successful load yields a ready pipeline. -/
theorem claim_C4_amended_witness :
    query_documents (fun _ => "") (some ⟨false, [], [], []⟩) ⟨true, []⟩ =
      .error { message := coreErrorMsg .pipelineNotReady, status := 400 } ∧
    (⟨true, [], [("c", "Lease")], []⟩ : CoreState).ready = true :=
  claim_C4_amended (fun _ => "") ⟨false, [], [], []⟩ ⟨false, [], [("c", "Lease")], []⟩
    ⟨true, [], [("c", "Lease")], []⟩ ⟨true, []⟩ "c" [("Lease", true)] rfl rfl

/-- C7: a request missing a required parameter is rejected with a 400 error
whose message is built from exactly the absent required fields, and the
response is the same for every core function — so the core is never
invoked.  Shown for the query route missing question, the process route
missing file_paths, and the compare route missing question, category1 or
category2. -/
theorem claim_C7_missing_fields_rejected (generate : String → String)
    (fileExists : String → Bool) (extract : String → Except String String)
    (categorize : String → String) (st : CoreState) (req : JsonRequest)
    (hjson : req.is_json = true) (hne : req.fields ≠ [])
    (hready : st.ready = true) :
    (req.hasKey "question" = false →
      query_documents generate (some st) req =
        .error { message := missingFieldsMsg (["question"].filter (fun f => !req.hasKey f)),
                 status := 400 }) ∧
    (req.hasKey "file_paths" = false →
      process_documents fileExists extract categorize (some st) req =
        .error { message := missingFieldsMsg (["file_paths"].filter (fun f => !req.hasKey f)),
                 status := 400 }) ∧
    ((req.hasKey "question" = false ∨ req.hasKey "category1" = false ∨
        req.hasKey "category2" = false) →
      compare_documents generate (some st) req =
        .error { message := missingFieldsMsg (["question", "category1", "category2"].filter (fun f => !req.hasKey f)),
                 status := 400 }) := by
  refine ⟨?_, ?_, ?_⟩
  · intro hq
    have hm : (["question"].filter (fun f => !req.hasKey f)) ≠ [] := by
      simp [List.filter_cons, hq]
    have hv := validate_missing ["question"] req hjson hne hm
    simp [query_documents, hready, hv]
  · intro hp
    have hm : (["file_paths"].filter (fun f => !req.hasKey f)) ≠ [] := by
      simp [List.filter_cons, hp]
    have hv := validate_missing ["file_paths"] req hjson hne hm
    simp [process_documents, hv]
  · intro h
    have hm : (["question", "category1", "category2"].filter
        (fun f => !req.hasKey f)) ≠ [] := by
      rcases h with h | h | h
      · have hmem : "question" ∈ (["question", "category1", "category2"].filter
            (fun f => !req.hasKey f)) :=
          List.mem_filter.mpr ⟨by simp, by simp [h]⟩
        exact List.ne_nil_of_mem hmem
      · have hmem : "category1" ∈ (["question", "category1", "category2"].filter
            (fun f => !req.hasKey f)) :=
          List.mem_filter.mpr ⟨by simp, by simp [h]⟩
        exact List.ne_nil_of_mem hmem
      · have hmem : "category2" ∈ (["question", "category1", "category2"].filter
            (fun f => !req.hasKey f)) :=
          List.mem_filter.mpr ⟨by simp, by simp [h]⟩
        exact List.ne_nil_of_mem hmem
    have hv := validate_missing _ req hjson hne hm
    simp [compare_documents, hv]

/-- C7 witness: a concrete JSON request carrying none of the required
fields is rejected by all three routes with the 400 message naming the
missing fields. -/
theorem claim_C7_witness :
    query_documents (fun _ => "") (some ⟨true, [], [], []⟩)
        ⟨true, [("x", JVal.null)]⟩ =
      .error { message := missingFieldsMsg ["question"], status := 400 } ∧
    process_documents (fun _ => true) (fun p => Except.ok p) (fun _ => "NDA")
        (some ⟨true, [], [], []⟩) ⟨true, [("x", JVal.null)]⟩ =
      .error { message := missingFieldsMsg ["file_paths"], status := 400 } ∧
    compare_documents (fun _ => "") (some ⟨true, [], [], []⟩)
        ⟨true, [("x", JVal.null)]⟩ =
      .error { message := missingFieldsMsg ["question", "category1", "category2"],
               status := 400 } := by
  have h := claim_C7_missing_fields_rejected (fun _ => "") (fun _ => true)
    (fun p => Except.ok p) (fun _ => "NDA") ⟨true, [], [], []⟩ ⟨true, [("x", JVal.null)]⟩
    rfl (by decide) rfl
  exact ⟨h.1 (by decide), h.2.1 (by decide), h.2.2 (Or.inl (by decide))⟩

/-- C3: a comparison where either scope yields zero retrieved chunks is
returned by the compare route as a success payload carrying the structured
insufficient-evidence result — identically for every generation model — and
is never a generated comparison. -/
theorem claim_C3_compare_insufficient_evidence (generate : String → String)
    (st : CoreState) (req : JsonRequest)
    (hready : st.ready = true) (hjson : req.is_json = true) (hne : req.fields ≠ [])
    (hq : req.hasKey "question" = true) (hc1 : req.hasKey "category1" = true)
    (hc2 : req.hasKey "category2" = true)
    (hzero : retrieveCategory st (req.getStr "category1") = [] ∨
      retrieveCategory st (req.getStr "category2") = []) :
    compare_documents generate (some st) req =
      .ok (.insufficientEvidence (req.getStr "category1") (req.getStr "category2")) ∧
    (∀ text sa sb, compare_documents generate (some st) req ≠
      .ok (.comparison text sa sb)) := by
  have hv : validate_json_request ["question", "category1", "category2"] req = .ok req :=
    validate_ok _ _ hjson hne (by
      intro f hf
      simp at hf
      rcases hf with rfl | rfl | rfl
      · exact hq
      · exact hc1
      · exact hc2)
  have hcc : compare_core generate st (req.getStr "question") (req.getStr "category1")
      (req.getStr "category2") =
      .ok (.insufficientEvidence (req.getStr "category1") (req.getStr "category2")) := by
    simp only [compare_core, hready]
    rw [if_neg (by simp)]
    rw [if_pos hzero]
  have hmain : compare_documents generate (some st) req =
      .ok (.insufficientEvidence (req.getStr "category1") (req.getStr "category2")) := by
    simp [compare_documents, hv, hcc]
  refine ⟨hmain, ?_⟩
  intro text sa sb
  rw [hmain]
  simp

/-- C3 witness: comparing two categories on a ready pipeline with no indexed
chunks yields the structured insufficient-evidence result. -/
theorem claim_C3_witness :
    compare_documents (fun _ => "cmp") (some ⟨true, [], [], []⟩)
        ⟨true, [("question", JVal.s "q"), ("category1", JVal.s "A"),
          ("category2", JVal.s "B")]⟩ =
      .ok (.insufficientEvidence "A" "B") :=
  (claim_C3_compare_insufficient_evidence (fun _ => "cmp") ⟨true, [], [], []⟩
      ⟨true, [("question", JVal.s "q"), ("category1", JVal.s "A"),
        ("category2", JVal.s "B")]⟩
      rfl rfl (by decide) (by decide) (by decide) (by decide) (Or.inl rfl)).1

/-- Helper: a field that can be read is present as a key. -/
theorem hasKey_of_getField (req : JsonRequest) (k : String) (v : JVal)
    (h : req.getField k = some v) : req.hasKey k = true := by
  unfold JsonRequest.getField at h
  cases hfind : req.fields.find? (fun e => e.1 == k) with
  | none => rw [hfind] at h; cases h
  | some e =>
      have hmem : e ∈ req.fields := List.mem_of_find?_eq_some hfind
      have hk : e.1 = k := by
        have hpred := List.find?_some hfind
        simpa using hpred
      have hm : k ∈ req.fields.map Prod.fst := List.mem_map.mpr ⟨e, hmem, hk⟩
      simpa [JsonRequest.hasKey] using hm

/-- C2 counterexample: a batch holding one existing and one missing path is
aborted whole by the process route with a single 404 error — no per-file
map pairing the existing path with its category is returned alongside. -/
theorem claim_C2_counterexample :
    process_documents (fun p => p == "a.txt") (fun p => Except.ok p) (fun _ => "NDA")
        (some ⟨true, [], [], []⟩)
        ⟨true, [("file_paths", JVal.arr [some "a.txt", some "missing.txt"])]⟩ =
      .error { message := "Files not found: [missing.txt]", status := 404 } := by
  rfl

/-- C2 amended: a batch containing a path that does not exist is aborted
whole by the wrapper with a 404 naming every missing file, before the core
is invoked (the response is the same for every extraction and
categorization function); a batch whose paths all exist yields the per-file
map pairing each path with its own outcome — assigned category or per-file
error — successes alongside errors. -/
theorem claim_C2_amended (fileExists : String → Bool)
    (extract : String → Except String String) (categorize : String → String)
    (st : CoreState) (req : JsonRequest) (fps : List (Option String))
    (hjson : req.is_json = true) (hne : req.fields ≠ [])
    (hfp : req.getField "file_paths" = some (JVal.arr fps))
    (hnv : validPathsOf fps ≠ []) :
    ((validPathsOf fps).filter (fun fp => !fileExists fp) ≠ [] →
      process_documents fileExists extract categorize (some st) req =
        .error { message := "Files not found: [" ++ String.intercalate ", " ((validPathsOf fps).filter (fun fp => !fileExists fp)) ++ "]",
                 status := 404 }) ∧
    ((validPathsOf fps).filter (fun fp => !fileExists fp) = [] →
      process_documents fileExists extract categorize (some st) req =
        .ok ((validPathsOf fps).map (fun p => (p, (extract p).map categorize)))) := by
  have hv : validate_json_request ["file_paths"] req = .ok req :=
    validate_ok _ _ hjson hne (by
      intro f hf
      simp at hf
      subst hf
      exact hasKey_of_getField req "file_paths" (JVal.arr fps) hfp)
  have hfps : fps ≠ [] := by
    intro h
    subst h
    exact hnv rfl
  have hfalsy : (JVal.arr fps).falsy = false := by
    simp [JVal.falsy, hfps]
  constructor
  · intro hmiss
    simp [process_documents, hv, hfp, hfalsy, JVal.pathsOf, hnv, hmiss]
  · intro hmiss
    simp [process_documents, hv, hfp, hfalsy, JVal.pathsOf, hnv, hmiss,
      process_new_documents_with_categories]

/-- C2 amended witness: a batch whose single path exists reaches the core
and comes back as a per-file map assigning its category. -/
theorem claim_C2_amended_witness :
    process_documents (fun p => p == "a.txt") (fun p => Except.ok p) (fun _ => "NDA")
        (some ⟨true, [], [], []⟩) ⟨true, [("file_paths", JVal.arr [some "a.txt"])]⟩ =
      .ok [("a.txt", Except.ok "NDA")] := by
  have h := claim_C2_amended (fun p => p == "a.txt") (fun p => Except.ok p)
    (fun _ => "NDA") ⟨true, [], [], []⟩
    ⟨true, [("file_paths", JVal.arr [some "a.txt"])]⟩ [some "a.txt"]
    rfl (by decide) rfl (by decide)
  exact h.2 (by decide)

/-- Helper: takeWhile passes over a block whose elements all satisfy the
predicate. -/
theorem takeWhile_append_all {p : Char → Bool} (l m : List Char)
    (h : ∀ x ∈ l, p x = true) :
    (l ++ m).takeWhile p = l ++ m.takeWhile p := by
  induction l with
  | nil => simp
  | cons a t ih =>
      have ha : p a = true := h a (by simp)
      simp [List.takeWhile_cons, ha, ih (fun x hx => h x (List.mem_cons_of_mem a hx))]

/-- Helper: takeWhile stops inside a block holding a failing element. -/
theorem takeWhile_append_stop {p : Char → Bool} (l m : List Char)
    (h : ∃ x ∈ l, p x = false) :
    (l ++ m).takeWhile p = l.takeWhile p := by
  induction l with
  | nil =>
      rcases h with ⟨x, hx, _⟩
      cases hx
  | cons a t ih =>
      cases ha : p a with
      | false => simp [List.takeWhile_cons, ha]
      | true =>
          have ht : ∃ x ∈ t, p x = false := by
            rcases h with ⟨x, hx, hpx⟩
            rcases List.mem_cons.mp hx with rfl | hxt
            · rw [ha] at hpx
              cases hpx
            · exact ⟨x, hxt, hpx⟩
          simp [List.takeWhile_cons, ha, ih ht]

/-- Helper: the suffix after the last dot computed by the source recursion
equals the reversed dotless tail of the reversed filename. -/
theorem rsplitLast_eq_takeWhile (l : List Char) (h : l.contains '.' = true) :
    rsplitLast l = (l.reverse.takeWhile (fun c => c != '.')).reverse := by
  induction l with
  | nil => simp at h
  | cons c cs ih =>
      by_cases hcs : cs.contains '.' = true
      · simp only [rsplitLast]
        rw [if_neg (fun hand => by
          rw [hand.2] at hcs
          exact Bool.noConfusion hcs)]
        rw [ih hcs]
        have hrev : (c :: cs).reverse = cs.reverse ++ [c] := by simp
        rw [hrev, takeWhile_append_stop]
        have hdot : ('.' : Char) ∈ cs := by simpa using hcs
        exact ⟨'.', by simpa using hdot, by simp⟩
      · have hc : c = '.' := by
          have hmem : ('.' : Char) ∈ c :: cs := by simpa using h
          rcases List.mem_cons.mp hmem with heq | hin
          · exact heq.symm
          · exact absurd (by simpa using hin) (by simpa using hcs)
        have hcsf : cs.contains '.' = false := by
          cases hb : cs.contains '.'
          · rfl
          · exact absurd hb hcs
        simp only [rsplitLast]
        rw [if_pos ⟨hc, hcsf⟩]
        have hrev : (c :: cs).reverse = cs.reverse ++ [c] := by simp
        rw [hrev, takeWhile_append_all]
        · subst hc
          simp [List.takeWhile_cons]
        · intro x hx
          have hxcs : x ∈ cs := by simpa using hx
          have hxne : x ≠ '.' := by
            intro hxx
            subst hxx
            rw [show cs.contains '.' = true by simpa using hxcs] at hcsf
            cases hcsf
          simp [hxne]

/-- Helper: the source acceptance test agrees with the claim predicate. -/
theorem allowed_file_iff_spec (fn : String) :
    allowed_file fn = true ↔ allowedFileSpec fn := by
  by_cases hdot : fn.toList.contains '.' = true
  · have hmem : ('.' : Char) ∈ fn.toList := by simpa using hdot
    unfold allowed_file allowedFileSpec
    rw [rsplitLast_eq_takeWhile _ hdot]
    simp [hdot, hmem]
  · have hdf : fn.toList.contains '.' = false := by
      cases hb : fn.toList.contains '.'
      · rfl
      · exact absurd hb hdot
    have hmem : ('.' : Char) ∉ fn.toList := by
      intro hm
      rw [show fn.toList.contains '.' = true by simpa using hm] at hdf
      cases hdf
    unfold allowed_file allowedFileSpec
    simp [hdf]
    intro hm
    exact absurd hm hmem

/-- Helper: the upload loop records the file-type error of every part with
a nonempty disallowed filename. -/
theorem upload_error_recorded (files : List UploadedFile) (f : UploadedFile)
    (hf : f ∈ files) (hne : f.filename ≠ "")
    (hbad : allowed_file f.filename = false) :
    ("File type not allowed: " ++ f.filename) ∈ (upload_files files).2 := by
  induction files with
  | nil => cases hf
  | cons g t ih =>
      simp only [upload_files]
      rcases List.mem_cons.mp hf with rfl | hft
      · apply List.mem_append_left
        simp [uploadOutcome, hne, hbad]
      · exact List.mem_append_right _ (ih hft)

/-- Helper: every path the upload loop saves passed the extension test. -/
theorem upload_saved_allowed (files : List UploadedFile) (x : String)
    (hx : x ∈ (upload_files files).1) : allowed_file x = true := by
  induction files with
  | nil => cases hx
  | cons g t ih =>
      simp only [upload_files] at hx
      rcases List.mem_append.mp hx with hg | hT
      · unfold uploadOutcome at hg
        split_ifs at hg with h1 h2 h3 h4
        · simp at hg
        · simp at hg
        · simp at hg
        · simp at hg
          rw [hg]
          cases hb : allowed_file g.filename
          · exact absurd hb h2
          · rfl
        · simp at hg
      · exact ih hT

/-- C9: allowed_file accepts exactly the filenames whose suffix after the
last dot, lowercased, is an allowed extension; and every uploaded file — a
part carrying a nonempty filename — that fails the predicate is not saved
and has its per-file file-type error recorded by the upload loop. -/
theorem claim_C9_allowed_file_and_upload (fn : String) (files : List UploadedFile)
    (f : UploadedFile) (hf : f ∈ files) (hne : f.filename ≠ "")
    (hbad : allowed_file f.filename = false) :
    (allowed_file fn = true ↔ allowedFileSpec fn) ∧
    ("File type not allowed: " ++ f.filename) ∈ (upload_files files).2 ∧
    f.filename ∉ (upload_files files).1 := by
  refine ⟨allowed_file_iff_spec fn, upload_error_recorded files f hf hne hbad, ?_⟩
  intro hx
  have hall := upload_saved_allowed files f.filename hx
  rw [hall] at hbad
  cases hbad

/-- C9 witness: a pdf filename passes the predicate both ways, and a
concrete part with a disallowed extension is not saved and gets its
per-file error recorded. -/
theorem claim_C9_witness :
    (allowed_file "a.pdf" = true ↔ allowedFileSpec "a.pdf") ∧
    ("File type not allowed: " ++ "doc.xyz") ∈
      (upload_files [⟨"doc.xyz", 5, true⟩]).2 ∧
    "doc.xyz" ∉ (upload_files [⟨"doc.xyz", 5, true⟩]).1 :=
  claim_C9_allowed_file_and_upload "a.pdf" [⟨"doc.xyz", 5, true⟩]
    ⟨"doc.xyz", 5, true⟩ (by decide) (by decide) (by decide)
